import Mathlib

/-!
Shallow embedding of the audiobook_generator repository (Python) for
specification checking.

Modelled source files:
* `src/openaihelpers.py` — `retry_on_rate_limit`, `PRICING`, `estimate_tts_cost`
* `src/textToSpeech.py` — `split_text_into_chunks`
* `src/artGenerator.py` — `generate_book_art`
* `src/master_processor.py` — `process_chunk`, `process_book`, `cleanup_temp_files`

Python strings are modelled as `List Char` where character-level behaviour
matters (`split_text_into_chunks`) and as Lean `String` elsewhere.  Python
exceptions are modelled explicitly: a call either returns a value or raises a
`PyExc`.  Python `float` arithmetic in the cost estimator is modelled by exact
rational arithmetic together with round-half-even decimal rounding (Python's
`round(x, 4)`); the inputs appearing in the theorems below are small decimal
values on which binary-float rounding and exact decimal rounding agree.
-/

namespace Audiobook

set_option maxRecDepth 8000

/-- A Python exception as observed by the code under `src/`: either an
`OpenAIError` — with a flag recording whether the object is an instance of the
subclass `RateLimitError`, and its message string (`str(e)`) — or an exception
of any other class (identified by class name and message), which an
`except OpenAIError` clause does not catch. -/
inductive PyExc where
  | openAI (rateLimit : Bool) (msg : String)
  | other (cls : String) (msg : String)
deriving DecidableEq

/-- `pySubstr needle hay`: Python's `needle in hay` on strings, i.e. `needle`
occurs as a contiguous substring of `hay`. -/
def pySubstr (needle : List Char) : List Char → Bool
  | [] => needle.isEmpty
  | c :: rest => needle.isPrefixOf (c :: rest) || pySubstr needle rest

/-- Python `str.lower()` (the error messages involved are ASCII), on the
character list of the string. -/
def pyLower (s : List Char) : List Char := s.map Char.toLower

/-- The capacity-exhaustion test of `retry_on_rate_limit`
(`src/openaihelpers.py`, lines 54–59): the lowered message contains
`insufficient_quota` or `exceeded your current quota`, or the exception is a
`RateLimitError` instance.  The test is only ever reached inside
`except OpenAIError`, so any non-`OpenAIError` exception is not classified as
capacity-exhaustion. -/
def isCapacityExc : PyExc → Bool
  | .openAI rateLimit msg =>
      pySubstr "insufficient_quota".toList (pyLower msg.toList) ||
      pySubstr "exceeded your current quota".toList (pyLower msg.toList) ||
      rateLimit
  | .other _ _ => false

/-- One invocation of the wrapped operation: it either returns a value or
raises an exception. -/
inductive CallResult (α : Type) where
  | ok (v : α)
  | exc (e : PyExc)
deriving DecidableEq

/-- The observable outcome of running a Python function: a normal return value
or a raised (uncaught) exception. -/
inductive PyResult (α : Type) where
  | ret (v : α)
  | raised (e : PyExc)
deriving DecidableEq

/-- Observable trace of one `retry_on_rate_limit` call: how many times the
wrapped operation was invoked, how many one-hour cooldown waits were performed,
and the outcome.  A normal return carries `Option α`: `some v` on success,
`none` for the soft-failure marker `None`. -/
structure RetryTrace (α : Type) where
  calls : Nat
  waits : Nat
  outcome : PyResult (Option α)
deriving DecidableEq

/-- `max_retries = 10` in `retry_on_rate_limit` (`src/openaihelpers.py`). -/
def max_retries : Nat := 10

/-- The `while attempt < max_retries` loop of `retry_on_rate_limit`
(`src/openaihelpers.py`, lines 45–85).  The wrapped operation is modelled as a
function from the 0-based invocation index to that invocation's result.
`fuel` is `max_retries - attempt`, so `fuel = 0` is the (unreachable from the
initial state) fall-through of the `while`, which returns `None`.
On a capacity-exhaustion `OpenAIError` the code increments `attempt`, returns
`None` once `attempt >= max_retries`, and otherwise performs the one-hour
cooldown wait and loops.  Any other `OpenAIError` is re-raised; an exception
that is not an `OpenAIError` is not caught at all and propagates. -/
def retryAux (func : Nat → CallResult α) :
    (fuel attempt calls waits : Nat) → RetryTrace α
  | 0, _, calls, waits => ⟨calls, waits, .ret none⟩
  | fuel + 1, attempt, calls, waits =>
    match func attempt with
    | .ok v => ⟨calls + 1, waits, .ret (some v)⟩
    | .exc (.openAI rateLimit msg) =>
      if isCapacityExc (.openAI rateLimit msg) then
        if max_retries ≤ attempt + 1 then ⟨calls + 1, waits, .ret none⟩
        else retryAux func fuel (attempt + 1) (calls + 1) (waits + 1)
      else ⟨calls + 1, waits, .raised (.openAI rateLimit msg)⟩
    | .exc (.other cls msg) => ⟨calls + 1, waits, .raised (.other cls msg)⟩

/-- `retry_on_rate_limit(func, ...)` (`src/openaihelpers.py`, lines 29–85),
as the trace of its retry loop starting from `attempt = 0`. -/
def retry_on_rate_limit (func : Nat → CallResult α) : RetryTrace α :=
  retryAux func max_retries 0 0 0

/-- Advancing the retry loop over `k` consecutive capacity-exhaustion
failures: each one consumes one invocation and one cooldown wait. -/
lemma retryAux_capacity_steps (func : Nat → CallResult α) :
    ∀ (k attempt calls waits : Nat), attempt + k < max_retries →
    (∀ i, attempt ≤ i → i < attempt + k →
      ∃ e, func i = .exc e ∧ isCapacityExc e = true) →
    retryAux func (max_retries - attempt) attempt calls waits
      = retryAux func (max_retries - (attempt + k)) (attempt + k)
          (calls + k) (waits + k) := by
  intro k
  induction k with
  | zero => intro attempt calls waits _ _; simp
  | succ k ih =>
    intro attempt calls waits hlt hcap
    have hm : max_retries = 10 := rfl
    obtain ⟨e, hfe, hce⟩ := hcap attempt le_rfl (by omega)
    cases e with
    | other cls msg => simp [isCapacityExc] at hce
    | openAI rateLimit msg =>
      have hfuel : max_retries - attempt = (max_retries - (attempt + 1)) + 1 := by
        omega
      rw [hfuel]
      rw [show retryAux func ((max_retries - (attempt + 1)) + 1) attempt calls waits
            = retryAux func (max_retries - (attempt + 1)) (attempt + 1)
                (calls + 1) (waits + 1) by
        simp only [retryAux, hfe, hce, if_true]
        rw [if_neg (by omega)]]
      rw [ih (attempt + 1) (calls + 1) (waits + 1) (by omega)
            (fun i h1 h2 => hcap i (by omega) (by omega))]
      congr 1 <;> omega

/-- C1.  For every operation that raises a capacity-exhaustion error (an
`OpenAIError` whose message contains a quota-exceeded marker, or a
`RateLimitError`) on every invocation, `retry_on_rate_limit` invokes the
operation exactly 10 times (`max_retries`, inclusive of the first attempt) and
then returns the soft-failure marker `None` as a normal return value; no
exception reaches the caller. -/
theorem retry_all_capacity_soft_failure (func : Nat → CallResult α)
    (h : ∀ i, i < max_retries → ∃ e, func i = .exc e ∧ isCapacityExc e = true) :
    retry_on_rate_limit func = ⟨10, 9, .ret none⟩ := by
  have h9 := retryAux_capacity_steps func 9 0 0 0 (by simp [max_retries])
    (fun i _ h2 => h i (by simp only [max_retries]; omega))
  unfold retry_on_rate_limit
  rw [show max_retries = max_retries - 0 from rfl, h9]
  obtain ⟨e, hfe, hce⟩ := h 9 (by simp [max_retries])
  cases e with
  | other cls msg => simp [isCapacityExc] at hce
  | openAI rateLimit msg =>
    simp only [max_retries, retryAux, hfe, hce, if_true]
    rw [if_pos (by omega)]

/-- Witness for C1: an operation that always raises a `RateLimitError`. -/
theorem retry_all_capacity_soft_failure_witness :
    retry_on_rate_limit
        (fun _ => CallResult.exc (PyExc.openAI true "Rate limit reached"))
      = ⟨10, 9, PyResult.ret (none : Option Nat)⟩ :=
  retry_all_capacity_soft_failure _ (fun _ _ => ⟨_, rfl, by decide⟩)

/-- C2.  For every operation whose first invocation raises an error not
classified as capacity-exhaustion, `retry_on_rate_limit` re-raises that same
error to the caller after exactly one invocation of the operation, with no
retry and no cooldown wait. -/
theorem retry_hard_error_reraised (func : Nat → CallResult α) (e : PyExc)
    (hfe : func 0 = .exc e) (hce : isCapacityExc e = false) :
    retry_on_rate_limit func = ⟨1, 0, .raised e⟩ := by
  cases e with
  | openAI rateLimit msg =>
    simp only [retry_on_rate_limit, max_retries, retryAux, hfe, hce,
      Bool.false_eq_true, if_false]
  | other cls msg =>
    simp only [retry_on_rate_limit, max_retries, retryAux, hfe]

/-- Witness for C2: an operation raising an `OpenAIError` that is neither a
quota error nor a `RateLimitError` on its first call. -/
theorem retry_hard_error_reraised_witness :
    retry_on_rate_limit (α := Nat)
        (fun _ => CallResult.exc (PyExc.openAI false "Invalid request"))
      = ⟨1, 0, PyResult.raised (PyExc.openAI false "Invalid request")⟩ :=
  retry_hard_error_reraised _ _ rfl (by decide)

/-- C7.  For every operation that raises a capacity-exhaustion error on its
first two invocations and returns a value `v` on its third invocation,
`retry_on_rate_limit` invokes the operation exactly 3 times and returns `v`
(the success value, unchanged). -/
theorem retry_two_failures_then_success (func : Nat → CallResult α) (v : α)
    (h : ∀ i, i < 2 → ∃ e, func i = .exc e ∧ isCapacityExc e = true)
    (hv : func 2 = .ok v) :
    retry_on_rate_limit func = ⟨3, 2, .ret (some v)⟩ := by
  have h2 := retryAux_capacity_steps func 2 0 0 0 (by simp [max_retries])
    (fun i _ h2 => h i (by omega))
  unfold retry_on_rate_limit
  rw [show max_retries = max_retries - 0 from rfl, h2]
  simp only [max_retries, retryAux, hv]

/-- Witness for C7: quota errors on the first two invocations, success on the
third. -/
theorem retry_two_failures_then_success_witness :
    retry_on_rate_limit
        (fun i => if i < 2
          then CallResult.exc
            (PyExc.openAI false "You exceeded your current quota")
          else CallResult.ok 42)
      = ⟨3, 2, PyResult.ret (some 42)⟩ :=
  retry_two_failures_then_success _ 42
    (fun i hi => ⟨PyExc.openAI false "You exceeded your current quota",
      by simp [hi], by decide⟩) (by simp)

/-- C10.  For every operation that raises an exception which is not an
instance of `OpenAIError`, `retry_on_rate_limit` propagates that exception to
the caller on the very invocation that raised it, with no retry and no
cooldown for it, regardless of the exception's message text —
capacity-exhaustion classification is only ever applied to `OpenAIError`
instances.  Stated in general position: after any number `k` of
capacity-exhaustion retries, a non-`OpenAIError` raised at invocation `k`
propagates at once, after exactly `k + 1` invocations and the `k` cooldowns of
the earlier capacity errors. -/
theorem retry_non_openai_exception_propagates (func : Nat → CallResult α)
    (k : Nat) (cls msg : String) (hk : k < max_retries)
    (hcap : ∀ i, i < k → ∃ e, func i = .exc e ∧ isCapacityExc e = true)
    (hfe : func k = .exc (.other cls msg)) :
    retry_on_rate_limit func = ⟨k + 1, k, .raised (.other cls msg)⟩ := by
  have hsteps := retryAux_capacity_steps func k 0 0 0 (by omega)
    (fun i _ h2 => hcap i (by omega))
  unfold retry_on_rate_limit
  rw [show max_retries = max_retries - 0 from rfl, hsteps]
  have hfuel : max_retries - (0 + k) = (max_retries - (0 + k) - 1) + 1 := by
    omega
  rw [hfuel]
  simp only [Nat.zero_add, retryAux, hfe]

/-- Witness for C10: a `json.JSONDecodeError`-style exception whose message
even contains the quota marker is still propagated on its first invocation. -/
theorem retry_non_openai_exception_propagates_witness :
    retry_on_rate_limit (α := Nat)
        (fun _ => CallResult.exc
          (PyExc.other "JSONDecodeError" "insufficient_quota"))
      = ⟨1, 0, PyResult.raised
          (PyExc.other "JSONDecodeError" "insufficient_quota")⟩ :=
  retry_non_openai_exception_propagates _ 0 _ _ (by decide)
    (fun i hi => absurd hi (Nat.not_lt_zero i)) rfl

/-- `split_text_into_chunks(text, chunk_size)` (`src/textToSpeech.py`,
lines 14–15): `[text[i:i+chunk_size] for i in range(0, len(text), chunk_size)]`.
The Python `range(0, L, n)` for `n ≥ 1` enumerates `i = k * n` for
`k < (L + n - 1) / n`, and the slice `text[i:i+n]` is `(text.drop i).take n`.
Text is modelled as its list of characters. -/
def split_text_into_chunks (text : List Char) (chunk_size : Nat := 4000) :
    List (List Char) :=
  (List.range ((text.length + chunk_size - 1) / chunk_size)).map
    (fun k => (text.drop (k * chunk_size)).take chunk_size)

lemma split_text_into_chunks_nil (n : Nat) :
    split_text_into_chunks [] n = [] := by
  have h : (n - 1) / n = 0 := by
    rcases Nat.eq_zero_or_pos n with h0 | h0
    · simp [h0]
    · exact Nat.div_eq_of_lt (by omega)
  simp [split_text_into_chunks, h]

/-- The list comprehension over `range` satisfies the natural recursion:
the first chunk is `text[:n]`, the rest is the split of `text[n:]`. -/
lemma split_text_into_chunks_cons (c : Char) (t : List Char) (n : Nat)
    (hn : 0 < n) :
    split_text_into_chunks (c :: t) n
      = (c :: t).take n :: split_text_into_chunks ((c :: t).drop n) n := by
  have hL : (c :: t).length = t.length + 1 := rfl
  have hdroplen : ((c :: t).drop n).length = t.length + 1 - n := by
    simp [hL]
  have hcount : ((c :: t).length + n - 1) / n
      = (((c :: t).drop n).length + n - 1) / n + 1 := by
    rw [hL, hdroplen]
    rcases le_or_lt (t.length + 1) n with hle | hlt
    · have h1 : (t.length + 1 + n - 1) / n = 1 :=
        Nat.div_eq_of_lt_le (by omega) (by omega)
      have h2 : (t.length + 1 - n + n - 1) / n = 0 := by
        have h0 : t.length + 1 - n = 0 := by omega
        rw [h0]
        exact Nat.div_eq_of_lt (by omega)
      rw [h1, h2]
    · have h3 : t.length + 1 + n - 1 = (t.length + 1 - n + n - 1) + n := by
        omega
      rw [h3, Nat.add_div_right _ hn]
  unfold split_text_into_chunks
  rw [hcount, List.range_succ_eq_map]
  simp only [List.map_cons, Nat.zero_mul, List.drop_zero, List.map_map]
  congr 1
  apply List.map_congr_left
  intro k _
  simp only [Function.comp_apply, Nat.succ_eq_add_one]
  rw [List.drop_drop]
  congr 1
  rw [Nat.succ_mul, Nat.add_comm]

/-- Round-trip: concatenating the chunks reconstructs the text. -/
lemma split_text_into_chunks_flatten (n : Nat) (hn : 0 < n) :
    ∀ (L : Nat) (text : List Char), text.length ≤ L →
      (split_text_into_chunks text n).flatten = text := by
  intro L
  induction L with
  | zero =>
    intro text h
    have h0 : text = [] := List.length_eq_zero.mp (by omega)
    subst h0
    simp [split_text_into_chunks_nil]
  | succ L ih =>
    intro text h
    cases text with
    | nil => simp [split_text_into_chunks_nil]
    | cons c t =>
      rw [split_text_into_chunks_cons c t n hn]
      rw [List.flatten_cons]
      have hdl : ((c :: t).drop n).length ≤ L := by
        simp only [List.length_drop, List.length_cons]
        simp only [List.length_cons] at h
        omega
      rw [ih ((c :: t).drop n) hdl]
      exact List.take_append_drop n (c :: t)

/-- Every chunk produced by the split is nonempty and no longer than `n`. -/
lemma split_text_into_chunks_sizes (n : Nat) (hn : 0 < n) :
    ∀ (L : Nat) (text : List Char), text.length ≤ L →
      ∀ c ∈ split_text_into_chunks text n, 0 < c.length ∧ c.length ≤ n := by
  intro L
  induction L with
  | zero =>
    intro text h
    have : text = [] := List.length_eq_zero.mp (by omega)
    subst this
    simp [split_text_into_chunks_nil]
  | succ L ih =>
    intro text h
    cases text with
    | nil => simp [split_text_into_chunks_nil]
    | cons c t =>
      rw [split_text_into_chunks_cons c t n hn]
      intro ck hck
      rcases List.mem_cons.mp hck with hck | hck
      · subst hck
        constructor
        · simp only [List.length_take, List.length_cons]
          omega
        · simp only [List.length_take, List.length_cons]
          omega
      · have hdl : ((c :: t).drop n).length ≤ L := by
          simp only [List.length_drop, List.length_cons]
          simp only [List.length_cons] at h
          omega
        exact ih ((c :: t).drop n) hdl ck hck

/-- Number of chunks: the direct count from the definition. -/
lemma split_text_into_chunks_length (text : List Char) (n : Nat) :
    (split_text_into_chunks text n).length = (text.length + n - 1) / n := by
  simp [split_text_into_chunks]

/-- Every chunk except possibly the last has length exactly `n`. -/
lemma split_text_into_chunks_full (text : List Char) (n : Nat) (hn : 0 < n)
    (i : Nat) (h : i + 1 < (split_text_into_chunks text n).length) :
    ((split_text_into_chunks text n).get ⟨i, by omega⟩).length = n := by
  have hk := split_text_into_chunks_length text n
  have hget : (split_text_into_chunks text n).get ⟨i, by omega⟩
      = (text.drop (i * n)).take n := by
    simp [split_text_into_chunks]
  rw [hget]
  have hiq : i + 1 < (text.length + n - 1) / n := by omega
  have hupper : ((text.length + n - 1) / n) * n ≤ text.length + n - 1 :=
    Nat.div_mul_le_self _ _
  have hL1 : 1 ≤ text.length := by
    by_contra hcon
    have h0 : text.length = 0 := by omega
    rw [h0] at hiq
    have hz : (0 + n - 1) / n = 0 := Nat.div_eq_of_lt (by omega)
    omega
  have hchain : i * n + n + n ≤ text.length + n - 1 := by
    calc i * n + n + n = (i + 2) * n := by ring
      _ ≤ ((text.length + n - 1) / n) * n :=
          Nat.mul_le_mul_right n (by omega)
      _ ≤ text.length + n - 1 := hupper
  have hfull : i * n + n ≤ text.length := by
    generalize hM : i * n = M at hchain ⊢
    omega
  simp only [List.length_take, List.length_drop]
  generalize hM : i * n = M at hfull ⊢
  omega

/-- C6.  For every chunk size `n ≥ 1` and every text of length `L`,
`split_text_into_chunks text n` returns exactly `⌈L/n⌉` chunks (characterised
by `L ≤ count * n < L + n`, with the count also given by the closed form
`(L + n - 1) / n`), each chunk has length `n` except possibly the last (every
chunk is nonempty and of length at most `n`, and the split is nonempty when
`L > 0`), and concatenating the returned chunks in order reconstructs the
original text exactly. -/
theorem split_text_into_chunks_spec (text : List Char) (n : Nat)
    (hn : 1 ≤ n) :
    (split_text_into_chunks text n).length = (text.length + n - 1) / n ∧
    text.length ≤ (split_text_into_chunks text n).length * n ∧
    (split_text_into_chunks text n).length * n < text.length + n ∧
    (∀ i (h : i + 1 < (split_text_into_chunks text n).length),
      ((split_text_into_chunks text n).get ⟨i, by omega⟩).length = n) ∧
    (∀ c ∈ split_text_into_chunks text n, 0 < c.length ∧ c.length ≤ n) ∧
    (0 < text.length → split_text_into_chunks text n ≠ []) ∧
    (split_text_into_chunks text n).flatten = text := by
  have hn' : 0 < n := hn
  have hlen := split_text_into_chunks_length text n
  have hupper : ((text.length + n - 1) / n) * n ≤ text.length + n - 1 :=
    Nat.div_mul_le_self _ _
  have hlower : text.length + n - 1 < ((text.length + n - 1) / n + 1) * n :=
    (Nat.div_lt_iff_lt_mul hn').mp (Nat.lt_succ_self _)
  have hmul : ((text.length + n - 1) / n + 1) * n
      = ((text.length + n - 1) / n) * n + n := by ring
  rw [hmul] at hlower
  have hLq : text.length ≤ ((text.length + n - 1) / n) * n := by
    generalize hM : ((text.length + n - 1) / n) * n = M at hupper hlower ⊢
    omega
  have hqL : ((text.length + n - 1) / n) * n < text.length + n := by
    generalize hM : ((text.length + n - 1) / n) * n = M at hupper hlower ⊢
    omega
  refine ⟨hlen, by rw [hlen]; exact hLq, by rw [hlen]; exact hqL,
    split_text_into_chunks_full text n hn',
    split_text_into_chunks_sizes n hn' text.length text le_rfl, ?_,
    split_text_into_chunks_flatten n hn' text.length text le_rfl⟩
  intro hpos hcon
  have h0 : (text.length + n - 1) / n = 0 := by
    have h1 : (split_text_into_chunks text n).length = 0 := by rw [hcon]; rfl
    omega
  have h2 : ((text.length + n - 1) / n) * n = 0 := by
    rw [h0, Nat.zero_mul]
  generalize hM : ((text.length + n - 1) / n) * n = M at hLq h2
  omega

/-- Witness for C6 at a concrete text and chunk size. -/
theorem split_text_into_chunks_spec_witness :
    (split_text_into_chunks "hello world".toList 4).flatten
      = "hello world".toList :=
  (split_text_into_chunks_spec "hello world".toList 4 (by decide)).2.2.2.2.2.2

/-- `PRICING['tts']` (`src/openaihelpers.py`, line 95): `0.015` dollars per
1000 characters, as an exact rational. -/
def PRICING_tts : ℚ := 15 / 1000

/-- Round-half-even to an integer (the rounding Python's `round` applies to
the decimal value of its argument). -/
def roundHalfEven (q : ℚ) : ℤ :=
  if q - ⌊q⌋ < 1 / 2 then ⌊q⌋
  else if 1 / 2 < q - ⌊q⌋ then ⌊q⌋ + 1
  else if ⌊q⌋ % 2 = 0 then ⌊q⌋ else ⌊q⌋ + 1

/-- Python's `round(x, 4)`: round to 4 decimal places, ties to even. -/
def pyRound4 (q : ℚ) : ℚ := (roundHalfEven (q * 10000) : ℚ) / 10000

/-- The result dictionary of `estimate_tts_cost`. -/
structure TTSEstimate where
  characters : Nat
  cost : ℚ
deriving DecidableEq

/-- `estimate_tts_cost(text)` (`src/openaihelpers.py`, lines 98–110):
`char_count = len(text)`, `cost = (char_count / 1000) * PRICING['tts']`,
returned as `{'characters': char_count, 'cost': round(cost, 4)}`.
Float arithmetic is modelled by exact rational arithmetic; on the decimal
values appearing in the theorems below the two agree. -/
def estimate_tts_cost (text : List Char) : TTSEstimate :=
  { characters := text.length
    cost := pyRound4 (((text.length : ℚ) / 1000) * PRICING_tts) }

/-- Rounding moves a value by at most 1/2. -/
lemma roundHalfEven_close (q : ℚ) : |(roundHalfEven q : ℚ) - q| ≤ 1 / 2 := by
  have h1 : (⌊q⌋ : ℚ) ≤ q := Int.floor_le q
  have h2 : q < ⌊q⌋ + 1 := Int.lt_floor_add_one q
  unfold roundHalfEven
  split_ifs with ha hb hc
  · rw [abs_le]
    constructor <;> linarith
  · push_cast
    rw [abs_le]
    constructor <;> linarith
  · rw [abs_le]
    constructor <;> linarith [le_of_not_lt ha]
  · push_cast
    rw [abs_le]
    constructor <;> linarith [le_of_not_lt hb]

/-- `pyRound4` moves a value by at most half of the last kept decimal. -/
lemma pyRound4_close (q : ℚ) : |pyRound4 q - q| ≤ 1 / 20000 := by
  have h := roundHalfEven_close (q * 10000)
  have h4 : pyRound4 q - q = ((roundHalfEven (q * 10000) : ℚ) - q * 10000) / 10000 := by
    unfold pyRound4
    field_simp
    rw [mul_comm]
  rw [h4, abs_div]
  rw [show |(10000 : ℚ)| = 10000 by norm_num]
  rw [div_le_iff₀ (by norm_num)]
  calc |(roundHalfEven (q * 10000) : ℚ) - q * 10000| ≤ 1 / 2 := h
    _ = 1 / 20000 * 10000 := by norm_num

/-- C8's counterexample: for a 1-character text the code returns cost `0.0`,
which is not `(1 / 1000) * PRICING['tts'] = 0.000015`; the returned cost is
the linear value rounded to 4 decimal places, not the linear value itself. -/
theorem estimate_tts_cost_not_exactly_linear :
    (estimate_tts_cost ['a']).cost = 0 ∧
    ((1 : ℚ) / 1000) * PRICING_tts ≠ 0 := by
  have h320 : ⌊(3 : ℚ) / 20⌋ = 0 := by
    rw [Int.floor_eq_zero_iff, Set.mem_Ico]
    norm_num
  have hr : roundHalfEven ((3 : ℚ) / 20) = 0 := by
    unfold roundHalfEven
    rw [h320]
    norm_num
  constructor
  · show pyRound4 (((['a'] : List Char).length : ℚ) / 1000 * PRICING_tts) = 0
    have harg : ((['a'] : List Char).length : ℚ) / 1000 * PRICING_tts * 10000
        = 3 / 20 := by
      norm_num [PRICING_tts]
    unfold pyRound4
    rw [harg, hr]
    norm_num
  · norm_num [PRICING_tts]

/-- C8, amended.  `estimate_tts_cost` records the exact character count, its
cost is the linear value `(len(text) / 1000) * PRICING['tts']` up to the
4-decimal rounding the code applies (the difference is at most `1/20000`,
half of the last kept decimal place), and for any 1000-character input the
returned cost equals the TTS rate `0.015` exactly. -/
theorem estimate_tts_cost_linear_up_to_rounding (text : List Char) :
    (estimate_tts_cost text).characters = text.length ∧
    |(estimate_tts_cost text).cost
        - ((text.length : ℚ) / 1000) * PRICING_tts| ≤ 1 / 20000 ∧
    (estimate_tts_cost (List.replicate 1000 'a')).cost = PRICING_tts := by
  refine ⟨rfl, pyRound4_close _, ?_⟩
  have h150 : ⌊(150 : ℚ)⌋ = 150 := by
    rw [show (150 : ℚ) = ((150 : ℤ) : ℚ) by norm_num, Int.floor_intCast]
  have hr2 : roundHalfEven (150 : ℚ) = 150 := by
    unfold roundHalfEven
    rw [h150]
    norm_num
  show pyRound4 (((List.replicate 1000 'a').length : ℚ) / 1000 * PRICING_tts)
      = PRICING_tts
  have harg2 : ((List.replicate 1000 'a').length : ℚ) / 1000 * PRICING_tts
      * 10000 = 150 := by
    norm_num [PRICING_tts, List.length_replicate]
  unfold pyRound4
  rw [harg2, hr2]
  norm_num [PRICING_tts]

/-! ## Chunk art pipeline (`src/artGenerator.py`) -/

/-- The external behaviour `generate_book_art` depends on, for one chunk:
the value returned by `analyze_text_context(title, text_chunk)` (`none` is its
soft-failure marker, returned both on retry exhaustion and on a JSON parse
error), the result of `generate_scene_image(analysis, title)` *as a function
of the analysis value passed to it* (the image prompt interpolates that value,
`None` included), and `save_image(image_url, chunk_number)`. -/
structure ArtStages (A : Type) where
  analysis : Option A
  illustrate : Option A → Option String
  save : String → Nat → String

/-- The stage invocations `generate_book_art` performs, in order, with the
argument each received. -/
inductive ArtEvent (A : Type) where
  | analyzeCalled
  | illustrateCalled (analysis : Option A)
  | saveCalled (image_url : String)
deriving DecidableEq

/-- `generate_book_art(title, text_chunk, chunk_number)`
(`src/artGenerator.py`, lines 161–181): it computes the analysis, prints it,
then unconditionally calls `generate_scene_image(analysis, title)` — there is
no `analysis is None` check — and only the image result is tested: on
`image_url is None` the function returns `None`, otherwise it saves the image
and returns the saved path.  Returns the result together with the list of
stage invocations performed. -/
def generate_book_art (st : ArtStages A) (chunk_number : Nat) :
    Option String × List (ArtEvent A) :=
  let analysis := st.analysis
  let image_url := st.illustrate analysis
  match image_url with
  | none => (none, [.analyzeCalled, .illustrateCalled analysis])
  | some url =>
      (some (st.save url chunk_number),
       [.analyzeCalled, .illustrateCalled analysis, .saveCalled url])

/-- The concrete C4 scenario: the Analyze stage soft-fails
(`analyze_text_context` returns `None`), while the image generator succeeds
on the prompt it is handed (which interpolates the Python value `None`). -/
def failedAnalysisStages : ArtStages Unit :=
  { analysis := none
    illustrate := fun _ => some "https://img.example/scene.png"
    save := fun _ n => "generated_images/scene_" ++ toString n ++ ".png" }

/-- C4 fails on the code: when the Analyze stage soft-fails,
`generate_book_art` still invokes the Illustrate stage (it calls
`generate_scene_image` with the `None` analysis), and when that call succeeds
the chunk is not even reported as failed — the art stage returns a saved image
path, so audio, transcription and video assembly all go on to run. -/
theorem generate_book_art_runs_illustrate_after_failed_analysis :
    failedAnalysisStages.analysis = none ∧
    ArtEvent.illustrateCalled none ∈ (generate_book_art failedAnalysisStages 3).2 ∧
    (generate_book_art failedAnalysisStages 3).1
      = some "generated_images/scene_3.png" := by
  refine ⟨rfl, ?_, rfl⟩
  show ArtEvent.illustrateCalled none ∈
    [ArtEvent.analyzeCalled, ArtEvent.illustrateCalled none,
     ArtEvent.saveCalled "https://img.example/scene.png"]
  simp

/-! ## Per-chunk pipeline and book orchestration (`src/master_processor.py`) -/

/-- The externally determined results of the three stage calls
`process_chunk` makes for one chunk: `generate_book_art` (returns an image
path or the `None` failure marker, or raises), `generate_audio` (likewise),
and `create_video_with_audio` (returns nothing or raises; its return value is
not inspected). -/
structure ChunkStages where
  art : PyResult (Option String)
  audio : PyResult (Option String)
  video : PyResult Unit
deriving DecidableEq

/-- `process_chunk(chunk, chunk_number, total_chunks, title)`
(`src/master_processor.py`, lines 15–63).  Step 1 checks the art result for
`None` and returns `None`; step 2 does the same for audio; step 3 runs video
creation and then returns `"chapter_{chunk_number}.mp4"`.  The surrounding
`try`/`except` prints the error and re-raises the same exception, so a raised
stage exception is observable as a raised exception of `process_chunk`. -/
def process_chunk (st : ChunkStages) (chunk_number : Nat) :
    PyResult (Option String) :=
  match st.art with
  | .raised e => .raised e
  | .ret none => .ret none
  | .ret (some _) =>
    match st.audio with
    | .raised e => .raised e
    | .ret none => .ret none
    | .ret (some _) =>
      match st.video with
      | .raised e => .raised e
      | .ret _ => .ret (some ("chapter_" ++ toString chunk_number ++ ".mp4"))

/-- The `for i, chunk in enumerate(chunks, 1)` loop of `process_book`
(`src/master_processor.py`, lines 76–78): each chunk's result is appended to
`all_video_parts` unconditionally (`all_video_parts.append(video_part)`),
whether it is a path or the `None` failure marker; an exception raised by
`process_chunk` is not caught anywhere in `process_book`, so it aborts the
remaining iterations and propagates. -/
def process_book_loop (runChunk : Nat → PyResult (Option String)) :
    List Nat → List (Option String) → PyResult (List (Option String))
  | [], acc => .ret acc
  | i :: rest, acc =>
    match runChunk i with
    | .raised e => .raised e
    | .ret v => process_book_loop runChunk rest (acc ++ [v])

/-- `process_book(url, title)` (`src/master_processor.py`, lines 65–88),
observed at the list `all_video_parts` it hands to `combine_videos` and
`cleanup_temp_files` after the loop: chunk numbers are `1 .. numChunks` in
order, and each chunk's behaviour is given by `stages`. -/
def process_book_parts (numChunks : Nat) (stages : Nat → ChunkStages) :
    PyResult (List (Option String)) :=
  process_book_loop (fun i => process_chunk (stages i) i)
    ((List.range numChunks).map (· + 1)) []

/-- The C3 scenario: five chunks; chunk 3's art stage soft-fails
(`generate_book_art` returns `None`), every other chunk succeeds fully. -/
def fiveChunkStages (i : Nat) : ChunkStages :=
  if i = 3 then
    { art := .ret none, audio := .ret none, video := .ret () }
  else
    { art := .ret (some ("generated_images/scene_" ++ toString i ++ ".png"))
      audio := .ret (some ("pride_and_prejudice_part_" ++ toString i ++ ".mp3"))
      video := .ret () }

/-- C3 fails on the code: with 5 chunks where chunk 3's pipeline run fails,
the list `process_book` passes to video concatenation is
`[chapter_1, chapter_2, None, chapter_4, chapter_5]` — the failed chunk is
represented by a `None` placeholder entry (which `combine_videos` then feeds
to `VideoFileClip`), not omitted; the list is not the claimed
`[chapter_1, chapter_2, chapter_4, chapter_5]`. -/
theorem process_book_keeps_none_placeholder :
    process_book_parts 5 fiveChunkStages
      = .ret [some "chapter_1.mp4", some "chapter_2.mp4", none,
              some "chapter_4.mp4", some "chapter_5.mp4"] ∧
    process_book_parts 5 fiveChunkStages
      ≠ .ret [some "chapter_1.mp4", some "chapter_2.mp4",
              some "chapter_4.mp4", some "chapter_5.mp4"] := by
  constructor
  · rfl
  · intro h
    rw [show process_book_parts 5 fiveChunkStages
        = .ret [some "chapter_1.mp4", some "chapter_2.mp4", none,
                some "chapter_4.mp4", some "chapter_5.mp4"] from rfl] at h
    simp at h

/-- The C5 counterexample scenario: chunk 1's art stage raises a hard
(non-retried) error; chunk 2 would succeed fully. -/
def hardFailStages (i : Nat) : ChunkStages :=
  if i = 1 then
    { art := .raised (.other "ValueError" "cannot open image"),
      audio := .ret none, video := .ret () }
  else
    { art := .ret (some "generated_images/scene_2.png")
      audio := .ret (some "pride_and_prejudice_part_2.mp3")
      video := .ret () }

/-- C5's counterexample: a hard exception raised by a stage is re-raised by
`process_chunk` (it reaches the orchestrator as an exception, not as a
per-chunk failure value), and `process_book` does not continue with the next
chunk — the whole book run terminates with that exception. -/
theorem process_chunk_exception_terminates_book :
    process_chunk (hardFailStages 1) 1
      = .raised (.other "ValueError" "cannot open image") ∧
    process_book_parts 2 hardFailStages
      = .raised (.other "ValueError" "cannot open image") := by
  exact ⟨rfl, rfl⟩

/-- Reading a normal return's value (used to state what the collected parts
list contains when no chunk raises). -/
def retValue : PyResult (Option String) → Option String
  | .ret v => v
  | .raised _ => none

lemma process_book_loop_all_ret (runChunk : Nat → PyResult (Option String)) :
    ∀ (l : List Nat) (acc : List (Option String)),
      (∀ i ∈ l, ∃ v, runChunk i = .ret v) →
      process_book_loop runChunk l acc
        = .ret (acc ++ l.map (fun i => retValue (runChunk i))) := by
  intro l
  induction l with
  | nil => intro acc _; simp [process_book_loop]
  | cons i rest ih =>
    intro acc h
    obtain ⟨v, hv⟩ := h i (List.mem_cons_self i rest)
    have hstep : process_book_loop runChunk (i :: rest) acc
        = process_book_loop runChunk rest (acc ++ [v]) := by
      simp only [process_book_loop, hv]
    rw [hstep, ih (acc ++ [v]) (fun j hj => h j (List.mem_cons_of_mem i hj))]
    simp [retValue, hv]

/-- C5, amended.  A *soft* stage failure (the stage returning the `None`
failure marker) aborts the remaining stages of that chunk and is surfaced to
the orchestrator as a per-chunk `None` value, and when every chunk's run
returns normally `process_book` continues through all chunks, collecting one
entry per chunk in index order; but a stage failure raised as an *exception*
is re-raised by `process_chunk` and propagates, terminating the whole book
run instead of continuing with the next chunk. -/
theorem process_chunk_soft_failure_contract (st : ChunkStages) (n : Nat)
    (numChunks : Nat) (stages : Nat → ChunkStages) :
    (st.art = .ret none → process_chunk st n = .ret none) ∧
    (∀ p, st.art = .ret (some p) → st.audio = .ret none →
      process_chunk st n = .ret none) ∧
    (∀ e, st.art = .raised e → process_chunk st n = .raised e) ∧
    ((∀ i, ∃ v, process_chunk (stages i) i = .ret v) →
      process_book_parts numChunks stages
        = .ret (((List.range numChunks).map (· + 1)).map
            (fun i => retValue (process_chunk (stages i) i)))) := by
  refine ⟨?_, ?_, ?_, ?_⟩
  · intro h
    unfold process_chunk
    rw [h]
  · intro p hart haudio
    unfold process_chunk
    rw [hart, haudio]
  · intro e h
    unfold process_chunk
    rw [h]
  · intro h
    exact process_book_loop_all_ret _ _ [] (fun i _ => h i)

/-- Witness for the amended C5 at concrete stage behaviours: a soft art
failure yields a per-chunk `None`, and a two-chunk book whose first chunk
soft-fails still processes both chunks, collecting `[None, chapter_2]`. -/
theorem process_chunk_soft_failure_contract_witness :
    process_chunk ⟨.ret none, .ret none, .ret ()⟩ 1 = .ret none ∧
    process_book_parts 2
        (fun i => if i = 1 then ⟨.ret none, .ret none, .ret ()⟩
          else ⟨.ret (some "img"), .ret (some "aud"), .ret ()⟩)
      = .ret [none, some "chapter_2.mp4"] := by
  constructor
  · exact (process_chunk_soft_failure_contract
      ⟨.ret none, .ret none, .ret ()⟩ 1 0 (fun _ => ⟨.ret none, .ret none, .ret ()⟩)).1 rfl
  · rw [(process_chunk_soft_failure_contract
      ⟨.ret none, .ret none, .ret ()⟩ 1 2
      (fun i => if i = 1 then ⟨.ret none, .ret none, .ret ()⟩
        else ⟨.ret (some "img"), .ret (some "aud"), .ret ()⟩)).2.2.2 ?_]
    · rfl
    · intro i
      by_cases hi : i = 1
      · exact ⟨none, by simp [hi, process_chunk]⟩
      · exact ⟨some ("chapter_" ++ toString i ++ ".mp4"),
          by simp [hi, process_chunk]⟩

/-! ## Cleanup of intermediate files (`src/master_processor.py`, lines 105–118)

The working directory is modelled as the list of names of the files that
exist.  `os.remove` on an existing name deletes it; `Path().glob(pattern)`
enumerates the existing names matching `pattern` (a `*` matches any run of
characters without a path separator). -/

/-- The `TypeError` that `os.path.exists(video)` raises when `video` is the
`None` entry a failed chunk left in `all_video_parts` (`os.stat` rejects
`None` with a `TypeError`, which `os.path.exists` does not catch).  The
message is a stand-in for CPython's exact wording. -/
def existsNoneTypeError : PyExc :=
  .other "TypeError" "path should be string, bytes or os.PathLike, not NoneType"

/-- A name matches the glob `pride_and_prejudice_part_*.mp3` of
`cleanup_temp_files`: prefixed by `pride_and_prejudice_part_` (25 chars),
suffixed by `.mp3` (4 chars), with no path separator in between. -/
def audioTempMatch (f : String) : Bool :=
  "pride_and_prejudice_part_".toList.isPrefixOf f.toList &&
  ".mp3".toList.isSuffixOf f.toList &&
  decide (29 ≤ f.toList.length) &&
  !(((f.toList.drop 25).take (f.toList.length - 29)).contains '/')

/-- A name matches `Path("generated_images").glob("scene_*.png")`: it lives
in `generated_images/`, with base name prefixed by `scene_` and suffixed by
`.png`, no further path separator. -/
def imageTempMatch (f : String) : Bool :=
  "generated_images/scene_".toList.isPrefixOf f.toList &&
  ".png".toList.isSuffixOf f.toList &&
  decide (27 ≤ f.toList.length) &&
  !(((f.toList.drop 23).take (f.toList.length - 27)).contains '/')

/-- The first loop of `cleanup_temp_files`:
`for video in video_parts: if os.path.exists(video): os.remove(video)`.
A `some` entry deletes that name if present; a `None` entry makes
`os.path.exists` raise a `TypeError`, which nothing catches. -/
def cleanupVideoParts :
    List (Option String) → List String → PyResult (List String)
  | [], fs => .ret fs
  | some v :: rest, fs =>
      cleanupVideoParts rest (fs.filter (fun f => decide (f ≠ v)))
  | none :: _, _ => .raised existsNoneTypeError

/-- `cleanup_temp_files(video_parts)` (`src/master_processor.py`,
lines 105–118): remove the listed video parts, then every file matching
`pride_and_prejudice_part_*.mp3`, then every file matching
`generated_images/scene_*.png`.  There is no `try`/`except` anywhere in the
function, so an exception raised while removing propagates to the caller
(`process_book`). -/
def cleanup_temp_files (video_parts : List (Option String))
    (fs : List String) : PyResult (List String) :=
  match cleanupVideoParts video_parts fs with
  | .raised e => .raised e
  | .ret fs1 =>
      .ret ((fs1.filter (fun f => !audioTempMatch f)).filter
        (fun f => !imageTempMatch f))

/-- C9's counterexample, both facets.  (1) In the claim's own scenario —
5 chunks, chunk 3 failed — the parts list handed to cleanup contains a `None`
placeholder, on which cleanup raises a `TypeError` that propagates to the
caller of `process_book` instead of being logged.  (2) Even on a parts list
with no `None`, cleanup's glob pass deletes the audio and image files of a
failed chunk (here chunk 2, which failed at the video stage after its image
and audio were written): nothing restricts the globs to successful chunks. -/
theorem cleanup_temp_files_violates_claim :
    cleanup_temp_files
        [some "chapter_1.mp4", some "chapter_2.mp4", none,
         some "chapter_4.mp4", some "chapter_5.mp4"]
        ["chapter_1.mp4", "chapter_2.mp4", "chapter_4.mp4", "chapter_5.mp4",
         "generated_images/scene_1.png", "generated_images/scene_3.png"]
      = .raised existsNoneTypeError ∧
    cleanup_temp_files [some "chapter_1.mp4"]
        ["chapter_1.mp4", "generated_images/scene_2.png",
         "pride_and_prejudice_part_2.mp3"]
      = .ret [] := by
  exact ⟨rfl, rfl⟩

lemma cleanupVideoParts_no_none :
    ∀ (parts : List (Option String)) (fs : List String), none ∉ parts →
      cleanupVideoParts parts fs
        = .ret (fs.filter (fun f => !(parts.contains (some f)))) := by
  intro parts
  induction parts with
  | nil =>
    intro fs _
    simp [cleanupVideoParts]
  | cons p rest ih =>
    intro fs hn
    cases p with
    | none => exact absurd (List.mem_cons_self none rest) (fun h => hn h)
    | some v =>
      have hn' : none ∉ rest := fun h => hn (List.mem_cons_of_mem _ h)
      show cleanupVideoParts rest (fs.filter (fun f => decide (f ≠ v)))
          = .ret (fs.filter (fun f => !((some v :: rest).contains (some f))))
      rw [ih _ hn']
      congr 1
      rw [List.filter_filter]
      apply List.filter_congr
      intro f _
      by_cases hfv : f = v
      · subst hfv; simp
      · simp [hfv]

lemma cleanupVideoParts_first_none :
    ∀ (p1 : List (Option String)) (p2 : List (Option String))
      (fs : List String), none ∉ p1 →
      cleanupVideoParts (p1 ++ none :: p2) fs = .raised existsNoneTypeError := by
  intro p1
  induction p1 with
  | nil => intro p2 fs _; rfl
  | cons p rest ih =>
    intro p2 fs hn
    cases p with
    | none => exact absurd (List.mem_cons_self none rest) (fun h => hn h)
    | some v =>
      show cleanupVideoParts (rest ++ none :: p2)
          (fs.filter (fun f => decide (f ≠ v))) = .raised existsNoneTypeError
      exact ih p2 _ (fun h => hn (List.mem_cons_of_mem _ h))

/-- C9, amended.  After concatenation, cleanup removes the listed per-chunk
video files that exist, every file matching `pride_and_prejudice_part_*.mp3`
and every file matching `generated_images/scene_*.png` — the glob passes are
not restricted to chunks whose pipeline run succeeded, so failed chunks'
intermediate audio and image files are deleted too; and cleanup has no error
handling: when the parts list contains the `None` placeholder of a failed
chunk, it raises a `TypeError` that propagates to the caller of
`process_book` rather than being logged. -/
theorem cleanup_temp_files_spec (parts : List (Option String))
    (fs : List String) :
    (none ∉ parts →
      cleanup_temp_files parts fs
        = .ret (((fs.filter (fun f => !(parts.contains (some f)))).filter
            (fun f => !audioTempMatch f)).filter
              (fun f => !imageTempMatch f))) ∧
    (∀ p1 p2, parts = p1 ++ none :: p2 → none ∉ p1 →
      cleanup_temp_files parts fs = .raised existsNoneTypeError) := by
  constructor
  · intro hn
    unfold cleanup_temp_files
    rw [cleanupVideoParts_no_none parts fs hn]
  · intro p1 p2 hparts hn
    unfold cleanup_temp_files
    rw [hparts, cleanupVideoParts_first_none p1 p2 fs hn]

/-- Witness for the amended C9: on a concrete parts list and working
directory, cleanup deletes the listed video and both glob-matched files
(including the failed chunk's image), leaving only the final video. -/
theorem cleanup_temp_files_spec_witness :
    cleanup_temp_files [some "chapter_1.mp4"]
        ["book_complete.mp4", "chapter_1.mp4",
         "pride_and_prejudice_part_1.mp3", "generated_images/scene_2.png"]
      = .ret ["book_complete.mp4"] := by
  rw [(cleanup_temp_files_spec [some "chapter_1.mp4"]
      ["book_complete.mp4", "chapter_1.mp4",
       "pride_and_prejudice_part_1.mp3", "generated_images/scene_2.png"]).1
    (by decide)]
  rfl

end Audiobook
